import Mathlib

/-!
Verification of the viewport/camera subsystem of `gamelive` (src/main.rs),
a terminal map viewer/editor.  The Rust source is shallowly embedded:

* `usize` values become `Nat`; Rust's `saturating_sub` is exactly `Nat`
  subtraction; plain `usize` subtraction `a - b` is a defined arithmetic
  error on underflow (panic in debug builds, wrap in release builds), so it
  is modelled by `checkedSub`, returning `none` on underflow; functions that
  contain such a subtraction return `Option`.
* `f64` cell values are modelled by `F := Option ℚ`, where `none` stands for
  NaN.  The only floating-point operation the program performs on cell
  values is the ordered comparison `v <= 0.0`, which is false whenever an
  operand is NaN and agrees with the rational order on the numerals the
  program stores (`0.0`, `1.0`, noise samples); `fle` captures exactly this.
* `Vec<Vec<f64>>` becomes `List (List F)`; the `String` built by
  `render_map` is modelled as the list of its newline-terminated lines,
  each a `List Char` in emission order.
-/

/-- Constant `MAP_WIDTH` (main.rs line 16). -/
def MAP_WIDTH : Nat := 200

/-- Constant `MAP_HEIGHT` (main.rs line 17). -/
def MAP_HEIGHT : Nat := 200

/-- Constant `RULLER_LEFT_SIZE` (main.rs line 18). -/
def RULLER_LEFT_SIZE : Nat := 4

/-- Constant `RULLER_UP_SIZE` (main.rs line 19). -/
def RULLER_UP_SIZE : Nat := 1

/-- Constant `RULLER_DOWN_SIZE` (main.rs line 20). -/
def RULLER_DOWN_SIZE : Nat := 1

/-- Model of an `f64` cell value: `some q` is an ordinary (rational-valued)
number, `none` is NaN. -/
def F : Type := Option ℚ

instance : DecidableEq F := by unfold F; infer_instance

/-- IEEE-754 ordered comparison `a <= b` on the `F` model: any comparison
with NaN is false. -/
def fle : F → F → Bool
  | Option.some a, Option.some b => a ≤ b
  | _, _ => false

/-- The literal `0.` of the Rust source. -/
def fzero : F := Option.some 0

/-- The literal `1.` of the Rust source. -/
def fone : F := Option.some 1

/-- `get_char_for_value` (main.rs lines 265-270): `v <= 0.` yields the
sparse glyph, everything else (including NaN) the solid glyph. -/
def get_char_for_value (value : F) : Char :=
  if fle value fzero then '░' else '█'

/-- Rust `usize` subtraction `a - b`: `none` models the underflow panic of
debug builds (release builds wrap instead; either way the subtraction is an
arithmetic error, not a saturation). -/
def checkedSub (a b : Nat) : Option Nat :=
  if b ≤ a then Option.some (a - b) else Option.none

/-- Read cell `(x, y)` of a map (`map[y][x]`); the default is irrelevant on
well-formed maps. -/
def mapGet (m : List (List F)) (x y : Nat) : F :=
  (m.getD y []).getD x fzero

/-- A map shaped as the program always keeps it: `MAP_HEIGHT` rows of
`MAP_WIDTH` cells. -/
def mapWF (m : List (List F)) : Prop :=
  m.length = MAP_HEIGHT ∧ ∀ row ∈ m, row.length = MAP_WIDTH

/-- `empty_map` (main.rs lines 254-263): an all-zero map with four landmark
cells set to `1.`. -/
def empty_map : List (List F) :=
  let m := List.replicate MAP_HEIGHT (List.replicate MAP_WIDTH fzero)
  let m := m.set 0 ((m.getD 0 []).set 0 fone)
  let m := m.set (MAP_WIDTH - 1) ((m.getD (MAP_WIDTH - 1) []).set (MAP_HEIGHT - 1) fone)
  let m := m.set (MAP_WIDTH - 5) ((m.getD (MAP_WIDTH - 5) []).set (MAP_HEIGHT - 2) fone)
  m.set (MAP_WIDTH - 10) ((m.getD (MAP_WIDTH - 10) []).set (MAP_HEIGHT - 10) fone)

/-- `draw_on_map` (main.rs lines 195-204): write `value` at `(map_x, map_y)`
when inside the nominal map bounds, otherwise leave the map untouched. -/
def draw_on_map (map : List (List F)) (map_x map_y : Nat) (value : F) :
    List (List F) :=
  if map_x < MAP_WIDTH ∧ map_y < MAP_HEIGHT then
    map.set map_y ((map.getD map_y []).set map_x value)
  else map

/-- `calc_adj_mouse` (main.rs lines 184-193): subtract the ruler
reservations from a screen coordinate when the ruler is shown.  The result
is signed (`isize` in the source). -/
def calc_adj_mouse (mouse_x mouse_y : Nat) (show_ruller : Bool) : Int × Int :=
  if show_ruller then
    ((mouse_x : Int) - (RULLER_LEFT_SIZE : Int), (mouse_y : Int) - (RULLER_UP_SIZE : Int))
  else ((mouse_x : Int), (mouse_y : Int))

/-- The world coordinate a click lands on: the guard and camera addition
shared by `handle_left_click` and `handle_right_click` (main.rs lines
214-218 and 230-234).  `none` is the `OutsideDrawable` case (adjusted
coordinate negative, no edit performed). -/
def clickTarget (mouse_x mouse_y camera_x camera_y : Nat) (show_ruller : Bool) :
    Option (Nat × Nat) :=
  let adj := calc_adj_mouse mouse_x mouse_y show_ruller
  if 0 ≤ adj.1 ∧ 0 ≤ adj.2 then
    Option.some (adj.1.toNat + camera_x, adj.2.toNat + camera_y)
  else Option.none

/-- `handle_left_click` (main.rs lines 222-236): paint `1.` at the clicked
world cell, or do nothing when the click is outside the drawable area. -/
def handle_left_click (mouse_x mouse_y : Nat) (map : List (List F))
    (camera_x camera_y : Nat) (show_ruller : Bool) : List (List F) :=
  match clickTarget mouse_x mouse_y camera_x camera_y show_ruller with
  | Option.some (map_x, map_y) => draw_on_map map map_x map_y fone
  | Option.none => map

/-- `handle_right_click` (main.rs lines 206-220): erase (write `0.`) at the
clicked world cell, or do nothing when outside the drawable area. -/
def handle_right_click (mouse_x mouse_y : Nat) (map : List (List F))
    (camera_x camera_y : Nat) (show_ruller : Bool) : List (List F) :=
  match clickTarget mouse_x mouse_y camera_x camera_y show_ruller with
  | Option.some (map_x, map_y) => draw_on_map map map_x map_y fzero
  | Option.none => map

/-- Right-align a digit string into `w` columns with spaces, as Rust's
`format!` with a `{:>w}` specifier does. -/
def padLeft (w : Nat) (l : List Char) : List Char :=
  List.replicate (w - l.length) ' ' ++ l

/-- `format!("\x7b:>2\x7d", n)`: two-column right-aligned decimal. -/
def fmtRight2 (n : Nat) : List Char :=
  padLeft 2 (Nat.toDigits 10 n)

/-- `format!("\x7b:>3\x7d ", n)`: three-column right-aligned decimal
followed by one space. -/
def fmt3sp (n : Nat) : List Char :=
  padLeft 3 (Nat.toDigits 10 n) ++ [' ']

/-- One two-column chunk of the top (X-axis) ruler row (main.rs lines
366-374): a label every tenth world column, blanks otherwise. -/
def topLabel (map_x : Nat) : List Char :=
  if map_x % 10 == 0 then fmtRight2 (map_x % 100) else [' ', ' ']

/-- The top ruler row (main.rs lines 364-376): left-ruler-sized blank
prefix, then a two-column chunk per content column. -/
def rulerTopRow (camera_x map_width : Nat) : List Char :=
  List.replicate RULLER_LEFT_SIZE ' ' ++
    ((List.range map_width).map (fun x => topLabel (x + camera_x))).flatten

/-- The left (Y-axis) ruler chunk of a content row (main.rs lines 382-389):
a label every fifth world row, blanks otherwise. -/
def leftLabel (map_y : Nat) : List Char :=
  if map_y % 5 == 0 then fmt3sp (map_y % 100) else List.replicate RULLER_LEFT_SIZE ' '

/-- The glyph emitted for content column `map_x` of content row `map_y`
(main.rs lines 391-401): the cell's glyph inside the grid, a blank beyond
its edge. -/
def contentChar (map : List (List F)) (map_x map_y : Nat) : Char :=
  if map_y < MAP_HEIGHT ∧ map_x < MAP_WIDTH then
    get_char_for_value (mapGet map map_x map_y)
  else ' '

/-- One content row of the rendered frame (main.rs lines 378-402): optional
left-ruler chunk, then one glyph per content column. -/
def contentLine (map : List (List F)) (camera_x camera_y map_width y : Nat)
    (show_ruller : Bool) : List Char :=
  (if show_ruller then leftLabel (y + camera_y) else []) ++
    (List.range map_width).map (fun x => contentChar map (x + camera_x) (y + camera_y))

/-- The lines emitted by the render loops of `render_map` for given content
dimensions: the optional top ruler row followed by the content rows. -/
def renderLines (map : List (List F)) (camera_x camera_y map_width map_height : Nat)
    (show_ruller : Bool) : List (List Char) :=
  (if show_ruller then [rulerTopRow camera_x map_width] else []) ++
    (List.range map_height).map (fun y => contentLine map camera_x camera_y map_width y show_ruller)

/-- `render_map` (main.rs lines 346-406): derive the content dimensions
from the terminal dimensions (raw `usize` subtraction of the ruler
reservations when the ruler is shown, hence `Option`), then emit the lines.
The Rust function returns the lines joined with newlines. -/
def render_map (map : List (List F)) (camera_x camera_y width height : Nat)
    (show_ruller : Bool) : Option (List (List Char)) :=
  if show_ruller then do
    let mw ← checkedSub width RULLER_LEFT_SIZE
    let mh1 ← checkedSub height RULLER_UP_SIZE
    let mh ← checkedSub mh1 RULLER_DOWN_SIZE
    pure (renderLines map camera_x camera_y mw mh true)
  else pure (renderLines map camera_x camera_y width height false)

/-- The pan-bound formula applied to drawable dimensions: the
`saturating_sub` calls of main.rs lines 76-86 (`Nat` subtraction is exactly
`saturating_sub`).  The first component bounds `camera_x`, the second
`camera_y`; the main loop names them `width` and `height`. -/
def boundsFromDrawable (dw dh : Nat) : Nat × Nat :=
  (MAP_WIDTH - dw, MAP_HEIGHT - dh)

/-- The drawable dimensions the per-frame bound computation subtracts from
the grid (main.rs lines 76-86): with the ruler shown, the terminal size
minus the left and top reservations via raw `usize` subtraction (`none`
models the underflow panic); without it, the terminal size itself. -/
def drawableDims (term_width term_height : Nat) (show_ruller : Bool) :
    Option (Nat × Nat) :=
  if show_ruller then do
    let dw ← checkedSub term_width RULLER_LEFT_SIZE
    let dh ← checkedSub term_height RULLER_UP_SIZE
    pure (dw, dh)
  else pure (term_width, term_height)

/-- The per-frame pan-bound computation (main.rs lines 76-86), composing
`drawableDims` with `boundsFromDrawable`. -/
def computeBounds (term_width term_height : Nat) (show_ruller : Bool) :
    Option (Nat × Nat) :=
  (drawableDims term_width term_height show_ruller).map
    fun d => boundsFromDrawable d.1 d.2

/-- One axis of the per-frame camera clamp (main.rs lines 88-93): pull the
coordinate down to the bound when it exceeds it. -/
def clamp1 (c bound : Nat) : Nat :=
  if c > bound then bound else c

/-- The state the main loop mutates across frames (main.rs lines 38-45). -/
structure AppState where
  camera_x : Nat
  camera_y : Nat
  show_ruller : Bool
  show_help : Bool
  noise_map : List (List F)

/-- The state at program start (main.rs lines 38-45): camera at the
origin, ruler and help shown, the landmark map. -/
def initState : AppState :=
  { camera_x := 0, camera_y := 0, show_ruller := true, show_help := true,
    noise_map := empty_map }

/-- The at-most-one input a frame processes (main.rs lines 95-175).
`idle` covers the poll timeout and every unbound key; quitting ends the
loop and is not a transition. -/
inductive InputEvent where
  | idle : InputEvent
  | ctrlD : InputEvent
  | ctrlU : InputEvent
  | ctrlR : InputEvent
  | keyH : InputEvent
  | keyL : InputEvent
  | keyK : InputEvent
  | keyJ : InputEvent
  | keyHelp : InputEvent
  | leftClick (col row : Nat) : InputEvent
  | rightClick (col row : Nat) : InputEvent

/-- The bound-and-clamp prefix of a frame (main.rs lines 76-93): compute
the pan bounds from the frame's terminal size, then clamp the camera to
them.  Returns the clamped state together with the bounds (named `width`
and `height` as in the source). -/
def clampStage (s : AppState) (term_width term_height : Nat) :
    Option (AppState × Nat × Nat) :=
  (computeBounds term_width term_height s.show_ruller).map fun (width, height) =>
    ({ s with camera_x := clamp1 s.camera_x width,
              camera_y := clamp1 s.camera_y height }, width, height)

/-- The input dispatch of a frame (main.rs lines 95-175), applied after the
clamp; `width`/`height` are the bounds of this frame and `half_height` is
`term_height / 2` (line 74).  `Ctrl+d` evaluates `height - half_height`
with raw `usize` subtraction, hence the `Option`. -/
def handleEvent (s : AppState) (width height half_height : Nat) :
    InputEvent → Option AppState
  | InputEvent.idle => Option.some s
  | InputEvent.ctrlD => do
      let limit ← checkedSub height half_height
      pure (if s.camera_y < limit then { s with camera_y := s.camera_y + half_height }
            else if s.camera_y < height then { s with camera_y := height }
            else s)
  | InputEvent.ctrlU =>
      Option.some (if s.camera_y > half_height then { s with camera_y := s.camera_y - half_height }
            else if s.camera_y > 0 then { s with camera_y := 0 }
            else s)
  | InputEvent.ctrlR => Option.some { s with show_ruller := !s.show_ruller }
  | InputEvent.keyH =>
      Option.some (if s.camera_x > 0 then { s with camera_x := s.camera_x - 1 } else s)
  | InputEvent.keyL =>
      Option.some (if s.camera_x < width then { s with camera_x := s.camera_x + 1 } else s)
  | InputEvent.keyK =>
      Option.some (if s.camera_y > 0 then { s with camera_y := s.camera_y - 1 } else s)
  | InputEvent.keyJ =>
      Option.some (if s.camera_y < height then { s with camera_y := s.camera_y + 1 } else s)
  | InputEvent.keyHelp => Option.some { s with show_help := !s.show_help }
  | InputEvent.leftClick col row =>
      Option.some { s with noise_map :=
        (handle_left_click col row s.noise_map s.camera_x s.camera_y s.show_ruller) }
  | InputEvent.rightClick col row =>
      Option.some { s with noise_map :=
        (handle_right_click col row s.noise_map s.camera_x s.camera_y s.show_ruller) }

/-- One iteration of the main loop (main.rs lines 47-176) for a given
terminal size and input: clamp stage, then input dispatch with
`half_height = term_height / 2`. -/
def frame (s : AppState) (term_width term_height : Nat) (ev : InputEvent) :
    Option AppState :=
  (clampStage s term_width term_height).bind fun (s', width, height) =>
    handleEvent s' width height (term_height / 2) ev

/-- A run of the main loop over a sequence of per-frame terminal sizes and
inputs. -/
def steps (s : AppState) : List (Nat × Nat × InputEvent) → Option AppState
  | [] => Option.some s
  | (tw, th, ev) :: rest => (frame s tw th ev).bind fun s' => steps s' rest

/-- An ordinary (non-NaN) `f64` value in the `F` model. -/
def fval (q : ℚ) : F := Option.some q

/-- The NaN `f64` value in the `F` model. -/
def fnan : F := Option.none

theorem clamp1_le_bound (c bound : Nat) : clamp1 c bound ≤ bound := by
  unfold clamp1; split <;> omega

theorem fmtRight2_length_lt100 : ∀ n, n < 100 → (fmtRight2 n).length = 2 := by
  decide

theorem fmt3sp_length_lt100 : ∀ n, n < 100 → (fmt3sp n).length = 4 := by
  decide

theorem topLabel_length (mx : Nat) : (topLabel mx).length = 2 := by
  unfold topLabel
  split
  · exact fmtRight2_length_lt100 _ (Nat.mod_lt _ (by norm_num))
  · rfl

theorem leftLabel_length (my : Nat) : (leftLabel my).length = RULLER_LEFT_SIZE := by
  unfold leftLabel
  split
  · exact fmt3sp_length_lt100 _ (Nat.mod_lt _ (by norm_num))
  · rfl

theorem flatten_const_length (L : List (List Char)) (k : Nat)
    (h : ∀ l ∈ L, l.length = k) : L.flatten.length = k * L.length := by
  induction L with
  | nil => simp
  | cons a t ih =>
      have ha : a.length = k := h a (by simp)
      have ht : ∀ l ∈ t, l.length = k := fun l hl => h l (by simp [hl])
      simp only [List.flatten_cons, List.length_append, List.length_cons, ha, ih ht]
      ring

theorem rulerTopRow_length (cx mw : Nat) :
    (rulerTopRow cx mw).length = RULLER_LEFT_SIZE + 2 * mw := by
  unfold rulerTopRow
  rw [List.length_append, List.length_replicate,
    flatten_const_length _ 2 (by
      intro l hl
      rcases List.mem_map.1 hl with ⟨x, _, rfl⟩
      exact topLabel_length _),
    List.length_map, List.length_range]

theorem contentLine_length (m : List (List F)) (cx cy mw y : Nat) (r : Bool) :
    (contentLine m cx cy mw y r).length = (if r then RULLER_LEFT_SIZE else 0) + mw := by
  unfold contentLine
  cases r <;>
    simp [List.length_append, List.length_map, List.length_range, leftLabel_length]

theorem contentLine_getD_ruler (m : List (List F)) (cx cy mw y k : Nat) (hk : k < mw) :
    (contentLine m cx cy mw y true).getD (RULLER_LEFT_SIZE + k) ' ' =
      contentChar m (k + cx) (y + cy) := by
  unfold contentLine
  rw [List.getD_eq_getElem?_getD, if_pos rfl,
    List.getElem?_append_right (by rw [leftLabel_length]; omega),
    leftLabel_length]
  simp only [Nat.add_sub_cancel_left, List.getElem?_map, List.getElem?_range hk]
  rfl

theorem contentLine_getD_plain (m : List (List F)) (cx cy mw y k : Nat) (hk : k < mw) :
    (contentLine m cx cy mw y false).getD k ' ' =
      contentChar m (k + cx) (y + cy) := by
  unfold contentLine
  rw [List.getD_eq_getElem?_getD, if_neg (by simp), List.nil_append]
  simp only [List.getElem?_map, List.getElem?_range hk]
  rfl

theorem renderLines_getD_ruler (m : List (List F)) (cx cy mw mh j : Nat) (hj : j < mh) :
    (renderLines m cx cy mw mh true).getD (RULLER_UP_SIZE + j) [] =
      contentLine m cx cy mw j true := by
  unfold renderLines
  rw [List.getD_eq_getElem?_getD, if_pos rfl,
    List.getElem?_append_right (by simp [RULLER_UP_SIZE])]
  simp only [List.length_cons, List.length_nil, RULLER_UP_SIZE, Nat.add_sub_cancel_left,
    Nat.add_comm 1 j, Nat.add_sub_cancel]
  rw [List.getElem?_map, List.getElem?_range hj]
  rfl

theorem renderLines_getD_plain (m : List (List F)) (cx cy mw mh j : Nat) (hj : j < mh) :
    (renderLines m cx cy mw mh false).getD j [] =
      contentLine m cx cy mw j false := by
  unfold renderLines
  rw [List.getD_eq_getElem?_getD, if_neg (by simp), List.nil_append]
  rw [List.getElem?_map, List.getElem?_range hj]
  rfl

theorem render_map_ruler_eq (m : List (List F)) (cx cy w h : Nat)
    (hw : RULLER_LEFT_SIZE ≤ w) (hh : RULLER_UP_SIZE + RULLER_DOWN_SIZE ≤ h) :
    render_map m cx cy w h true =
      Option.some (renderLines m cx cy (w - RULLER_LEFT_SIZE)
        (h - RULLER_UP_SIZE - RULLER_DOWN_SIZE) true) := by
  have h1 : RULLER_UP_SIZE ≤ h := by unfold RULLER_UP_SIZE RULLER_DOWN_SIZE at *; omega
  have h2 : RULLER_DOWN_SIZE ≤ h - RULLER_UP_SIZE := by
    unfold RULLER_UP_SIZE RULLER_DOWN_SIZE at *; omega
  simp [render_map, checkedSub, hw, h1, h2]

theorem render_map_plain_eq (m : List (List F)) (cx cy w h : Nat) :
    render_map m cx cy w h false =
      Option.some (renderLines m cx cy w h false) := by
  unfold render_map
  rw [if_neg (by simp)]
  rfl

/-- C5: the per-frame pan-bound computation applies
`max_x = max(0, grid_w − dw)`, `max_y = max(0, grid_h − dh)` to drawable
dimensions that already exclude the ruler reservations (left column block
and top row) when the ruler is shown; oversized drawables give bounds
`(0, 0)` and the clamp then pins the camera at the origin. -/
theorem compute_bounds_spec (dw dh tw th c : Nat) :
    (((boundsFromDrawable dw dh).1 : Int) = max 0 ((MAP_WIDTH : Int) - (dw : Int))
      ∧ ((boundsFromDrawable dw dh).2 : Int) = max 0 ((MAP_HEIGHT : Int) - (dh : Int)))
    ∧ (MAP_WIDTH ≤ dw → MAP_HEIGHT ≤ dh →
        boundsFromDrawable dw dh = (0, 0)
        ∧ clamp1 c (boundsFromDrawable dw dh).1 = 0
        ∧ clamp1 c (boundsFromDrawable dw dh).2 = 0)
    ∧ computeBounds tw th false = Option.some (boundsFromDrawable tw th)
    ∧ (RULLER_LEFT_SIZE ≤ tw → RULLER_UP_SIZE ≤ th →
        computeBounds tw th true =
          Option.some (boundsFromDrawable (tw - RULLER_LEFT_SIZE) (th - RULLER_UP_SIZE))) := by
  refine ⟨⟨?_, ?_⟩, ?_, ?_, ?_⟩
  · show ((MAP_WIDTH - dw : Nat) : Int) = _
    unfold MAP_WIDTH
    omega
  · show ((MAP_HEIGHT - dh : Nat) : Int) = _
    unfold MAP_HEIGHT
    omega
  · intro h1 h2
    unfold boundsFromDrawable clamp1
    rw [Nat.sub_eq_zero_of_le h1, Nat.sub_eq_zero_of_le h2]
    refine ⟨rfl, ?_, ?_⟩ <;> split <;> omega
  · rfl
  · intro h1 h2
    simp [computeBounds, drawableDims, checkedSub, h1, h2]

theorem compute_bounds_spec_witness :
    (RULLER_LEFT_SIZE ≤ 10 ∧ RULLER_UP_SIZE ≤ 10) ∧
      computeBounds 10 10 true = Option.some (boundsFromDrawable 6 9) :=
  ⟨⟨by decide, by decide⟩,
    (compute_bounds_spec 0 0 10 10 0).2.2.2 (by decide) (by decide)⟩

/-- C6 (code bug): the claim says the bound computation and render never
fail for any terminal size, all subtractions being saturated; but with the
ruler shown, `term_width - RULLER_LEFT_SIZE` (main.rs line 78) and
`width - RULLER_LEFT_SIZE` / `height - RULLER_UP_SIZE - RULLER_DOWN_SIZE`
(line 358) are raw `usize` subtractions: a terminal narrower than the left
ruler (or shorter than the top+bottom reservation) underflows — a panic in
debug builds — modelled here by `Option.none`. -/
theorem bounds_render_underflow_eval :
    computeBounds 3 10 true = Option.none
    ∧ render_map empty_map 0 0 3 10 true = Option.none
    ∧ computeBounds 10 0 true = Option.none
    ∧ render_map empty_map 0 0 10 1 true = Option.none :=
  ⟨rfl, rfl, rfl, rfl⟩

/-- C7 counterexample: the claim says NaN maps to the lowest band, but
`get_char_for_value` tests `value <= 0.`, which is false for NaN, so NaN
gets the high glyph `█`, not the low glyph `░`. -/
theorem glyph_nan_cex : get_char_for_value fnan = '█' ∧ '█' ≠ '░' :=
  ⟨rfl, by decide⟩

/-- C7 amended: `get_char_for_value` is total and pure — every value gets
exactly one of the two glyphs, `v <= 0` (including exactly `0.0`) gets the
low glyph, positive values get the high glyph, and NaN deterministically
gets the high glyph (its `<=` comparison is false), never a panic. -/
theorem glyph_for_total (v : F) :
    (get_char_for_value v = '░' ∨ get_char_for_value v = '█')
    ∧ (∀ q : ℚ, v = fval q →
        ((q ≤ 0 → get_char_for_value v = '░') ∧ (0 < q → get_char_for_value v = '█')))
    ∧ (v = fnan → get_char_for_value v = '█')
    ∧ get_char_for_value fzero = '░' := by
  refine ⟨?_, ?_, ?_, rfl⟩
  · unfold get_char_for_value
    split
    · exact Or.inl rfl
    · exact Or.inr rfl
  · intro q hq
    subst hq
    constructor
    · intro hq0
      simp [get_char_for_value, fle, fval, fzero, hq0]
    · intro hq0
      simp [get_char_for_value, fle, fval, fzero, not_le.2 hq0]
  · intro hq
    subst hq
    rfl

theorem glyph_for_total_witness :
    ((0 : ℚ) < 1) ∧ get_char_for_value (fval 1) = '█' :=
  ⟨by norm_num, ((glyph_for_total (fval 1)).2.1 1 rfl).2 (by norm_num)⟩

/-- C8: with the ruler shown, a pointer event whose column is inside the
left ruler reservation or whose row is inside the top ruler row adjusts to
a negative coordinate, is classified outside the drawable area
(`clickTarget = none`), and neither click handler changes the map. -/
theorem ruler_click_ignored (mx my c₁ c₂ : Nat) (m : List (List F))
    (h : mx < RULLER_LEFT_SIZE ∨ my < RULLER_UP_SIZE) :
    clickTarget mx my c₁ c₂ true = Option.none
    ∧ handle_left_click mx my m c₁ c₂ true = m
    ∧ handle_right_click mx my m c₁ c₂ true = m := by
  have hct : clickTarget mx my c₁ c₂ true = Option.none := by
    unfold clickTarget calc_adj_mouse
    rw [if_pos rfl, if_neg]
    rintro ⟨ha, hb⟩
    unfold RULLER_LEFT_SIZE RULLER_UP_SIZE at *
    rcases h with h | h <;> omega
  refine ⟨hct, ?_, ?_⟩ <;> simp [handle_left_click, handle_right_click, hct]

theorem ruler_click_ignored_witness :
    ((0 : Nat) < RULLER_LEFT_SIZE ∨ (0 : Nat) < RULLER_UP_SIZE) ∧
      (clickTarget 0 0 0 0 true = Option.none
       ∧ handle_left_click 0 0 empty_map 0 0 true = empty_map
       ∧ handle_right_click 0 0 empty_map 0 0 true = empty_map) :=
  ⟨Or.inl (by decide), ruler_click_ignored 0 0 0 0 empty_map (Or.inl (by decide))⟩

/-- C10: the per-frame clamp pulls a coordinate down to its bound exactly
when it exceeds it, leaves an in-range camera unchanged (idempotence), and
at the frame level `clampStage` returns an in-range camera's state
untouched. -/
theorem clamp_spec (c₁ c₂ b₁ b₂ : Nat) :
    (b₁ < c₁ → clamp1 c₁ b₁ = b₁)
    ∧ (c₁ ≤ b₁ → clamp1 c₁ b₁ = c₁)
    ∧ (c₁ ≤ b₁ → c₂ ≤ b₂ → (clamp1 c₁ b₁, clamp1 c₂ b₂) = (c₁, c₂))
    ∧ clamp1 (clamp1 c₁ b₁) b₁ = clamp1 c₁ b₁
    ∧ (∀ (s s' : AppState) (tw th w h : Nat),
        clampStage s tw th = Option.some (s', w, h) →
        s.camera_x ≤ w → s.camera_y ≤ h → s' = s) := by
  refine ⟨?_, ?_, ?_, ?_, ?_⟩
  · intro h; unfold clamp1; split <;> omega
  · intro h; unfold clamp1; split <;> omega
  · intro h1 h2; unfold clamp1; split <;> split <;> simp <;> omega
  · unfold clamp1
    by_cases h : b₁ < c₁ <;> simp [h]
  · intro s s' tw th w h hcl hx hy
    unfold clampStage at hcl
    cases hcb : computeBounds tw th s.show_ruller with
    | none => rw [hcb] at hcl; simp at hcl
    | some p =>
        obtain ⟨w0, h0⟩ := p
        rw [hcb] at hcl
        simp only [Option.map_some', Prod.mk.injEq, Option.some.injEq] at hcl
        obtain ⟨hs, hw, hh⟩ := hcl
        subst hw hh
        rw [← hs]
        cases s with
        | mk scx scy sr sh sm =>
            simp only [AppState.mk.injEq, and_true, true_and]
            constructor <;> simp_all [clamp1]

theorem clamp_spec_witness :
    ((5 : Nat) ≤ 10 ∧ (3 : Nat) ≤ 7) ∧ (clamp1 5 10, clamp1 3 7) = (5, 3) :=
  ⟨⟨by decide, by decide⟩, (clamp_spec 5 3 10 7).2.2.1 (by decide) (by decide)⟩

theorem getD_set_eq_of_lt {α : Type} (l : List α) (i : Nat) (a d : α)
    (h : i < l.length) : (l.set i a).getD i d = a := by
  rw [List.getD_eq_getElem?_getD, List.getElem?_set_self h]
  rfl

theorem getD_set_of_ne {α : Type} (l : List α) (i j : Nat) (a d : α)
    (h : i ≠ j) : (l.set i a).getD j d = l.getD j d := by
  rw [List.getD_eq_getElem?_getD, List.getElem?_set_ne h, ← List.getD_eq_getElem?_getD]

theorem getDL_set_eq_of_lt (l : List (List F)) (i : Nat) (a : List F)
    (h : i < l.length) : (l.set i a).getD i [] = a := by
  rw [List.getD_eq_getElem?_getD, List.getElem?_set_self h]
  rfl

theorem getDL_set_of_ne (l : List (List F)) (i j : Nat) (a : List F)
    (h : i ≠ j) : (l.set i a).getD j [] = l.getD j [] := by
  rw [List.getD_eq_getElem?_getD, List.getElem?_set_ne h, ← List.getD_eq_getElem?_getD]

/-- C9: `draw_on_map` is a silent no-op when the target is out of bounds
(the map is returned unchanged, no error), and an in-bounds write on a
well-formed map succeeds and changes only the addressed cell. -/
theorem draw_on_map_spec (m : List (List F)) (x y : Nat) (v : F) :
    ((MAP_WIDTH ≤ x ∨ MAP_HEIGHT ≤ y) → draw_on_map m x y v = m)
    ∧ (x < MAP_WIDTH → y < MAP_HEIGHT → mapWF m →
        mapGet (draw_on_map m x y v) x y = v)
    ∧ (∀ x' y', ¬(x' = x ∧ y' = y) →
        mapGet (draw_on_map m x y v) x' y' = mapGet m x' y') := by
  refine ⟨?_, ?_, ?_⟩
  · intro h
    unfold draw_on_map
    rw [if_neg (by omega)]
  · intro hx hy hwf
    obtain ⟨hlen, hrows⟩ := hwf
    have hy' : y < m.length := by omega
    have hxrow : x < (m.getD y []).length := by
      have hrow : m.getD y [] = m[y] := by
        rw [List.getD_eq_getElem?_getD, List.getElem?_eq_getElem hy']
        rfl
      rw [hrow, hrows m[y] (List.getElem_mem hy')]
      exact hx
    unfold draw_on_map mapGet
    rw [if_pos ⟨hx, hy⟩, getDL_set_eq_of_lt m y _ hy',
      getD_set_eq_of_lt _ x v fzero hxrow]
  · intro x' y' hne
    unfold draw_on_map
    split
    · unfold mapGet
      by_cases hyy : y' = y
      · subst hyy
        have hxx : x ≠ x' := fun hx' => hne ⟨hx'.symm, rfl⟩
        by_cases hylen : y' < m.length
        · rw [getDL_set_eq_of_lt m y' _ hylen, getD_set_of_ne _ x x' v fzero hxx]
        · rw [List.set_eq_of_length_le (by omega)]
      · rw [getDL_set_of_ne m y y' _ (fun h => hyy h.symm)]
    · rfl

theorem draw_on_map_spec_witness :
    (5 < MAP_WIDTH ∧ 7 < MAP_HEIGHT
      ∧ mapWF (List.replicate MAP_HEIGHT (List.replicate MAP_WIDTH fzero))) ∧
      mapGet (draw_on_map (List.replicate MAP_HEIGHT (List.replicate MAP_WIDTH fzero))
        5 7 fone) 5 7 = fone :=
  ⟨⟨by decide, by decide,
    ⟨List.length_replicate _ _, fun row hrow => by
      rw [List.eq_of_mem_replicate hrow, List.length_replicate]⟩⟩,
    (draw_on_map_spec (List.replicate MAP_HEIGHT (List.replicate MAP_WIDTH fzero))
        5 7 fone).2.1 (by decide) (by decide)
      ⟨List.length_replicate _ _, fun row hrow => by
        rw [List.eq_of_mem_replicate hrow, List.length_replicate]⟩⟩

/-- C1: in every state reachable by the main-loop step relation, after the
per-frame clamp the camera lies within the pan bounds computed for that
frame: `camera_x ≤ max_x` and `camera_y ≤ max_y` (non-negativity is
inherent, the coordinates being `usize`). -/
theorem camera_clamp_invariant (frames : List (Nat × Nat × InputEvent))
    (s s' : AppState) (tw th w h : Nat)
    (_hreach : steps initState frames = Option.some s)
    (hclamp : clampStage s tw th = Option.some (s', w, h)) :
    s'.camera_x ≤ w ∧ s'.camera_y ≤ h := by
  unfold clampStage at hclamp
  cases hcb : computeBounds tw th s.show_ruller with
  | none => rw [hcb] at hclamp; simp at hclamp
  | some p =>
      obtain ⟨w0, h0⟩ := p
      rw [hcb] at hclamp
      simp only [Option.map_some', Prod.mk.injEq, Option.some.injEq] at hclamp
      obtain ⟨hs, hw, hh⟩ := hclamp
      subst hw hh
      rw [← hs]
      exact ⟨clamp1_le_bound _ _, clamp1_le_bound _ _⟩

theorem camera_clamp_invariant_witness :
    (steps initState [] = Option.some initState
      ∧ clampStage initState 10 10 = Option.some (initState, 194, 191))
    ∧ (initState.camera_x ≤ 194 ∧ initState.camera_y ≤ 191) :=
  ⟨⟨rfl, rfl⟩, camera_clamp_invariant [] initState initState 10 10 194 191 rfl rfl⟩

/-- C4 (code bug): the claim (and the spec) say a half-page move that would
pass the boundary snaps exactly to it and never fails; but `Ctrl+d`
evaluates `height - half_height` (main.rs line 101) with raw `usize`
subtraction, and `half_height` is half the full terminal height (line 74),
so whenever half a page exceeds `max_y` the subtraction underflows — a
panic in debug builds (release builds wrap, making the comparison true and
the camera overshoot past `max_y`).  Reachable run: ruler off via `Ctrl+r`,
terminal 200×150, so `max_y = 50`, `half_height = 75`, then `Ctrl+d`. -/
theorem ctrl_d_underflow_eval :
    steps initState
        [(200, 150, InputEvent.ctrlR), (200, 150, InputEvent.ctrlD)]
      = Option.none := rfl

theorem contentLine_length_ruler (m : List (List F)) (cx cy mw y : Nat) :
    (contentLine m cx cy mw y true).length = RULLER_LEFT_SIZE + mw := by
  rw [contentLine_length, if_pos rfl]

theorem contentLine_length_plain (m : List (List F)) (cx cy mw y : Nat) :
    (contentLine m cx cy mw y false).length = mw := by
  rw [contentLine_length, if_neg (by simp), Nat.zero_add]

/-- C2 counterexample: with the ruler shown on a 10×5 terminal and the
program's initial map, `render_map` emits 4 rows, not `drawable_h = 5`,
and its first row (the top ruler row, two columns per content column) has
16 characters, not `drawable_w = 10`. -/
theorem render_rect_cex :
    (render_map empty_map 0 0 10 5 true).map List.length ≠ Option.some 5
    ∧ (render_map empty_map 0 0 10 5 true).map (fun rows => (rows.headD []).length)
        ≠ Option.some 10 := by
  constructor <;> decide

/-- C2 amended: with the ruler hidden, `render_map` yields exactly
`drawable_h` rows of exactly `drawable_w` characters for every camera
position and map (blank padding past the grid edge).  With the ruler
shown (and the terminal at least as large as the reservations, smaller
terminals underflowing — see the C6 analysis), it yields `drawable_h − 1`
rows: a top ruler row of `RULLER_LEFT_SIZE + 2·(drawable_w −
RULLER_LEFT_SIZE)` characters followed by `drawable_h − 2` content rows of
exactly `drawable_w` characters. -/
theorem render_rect_amended (m : List (List F)) (c₁ c₂ w h : Nat) :
    (render_map m c₁ c₂ w h false = Option.some (renderLines m c₁ c₂ w h false)
      ∧ (renderLines m c₁ c₂ w h false).length = h
      ∧ (∀ r ∈ renderLines m c₁ c₂ w h false, r.length = w))
    ∧ (RULLER_LEFT_SIZE ≤ w → RULLER_UP_SIZE + RULLER_DOWN_SIZE ≤ h →
        render_map m c₁ c₂ w h true
          = Option.some (renderLines m c₁ c₂ (w - RULLER_LEFT_SIZE)
              (h - RULLER_UP_SIZE - RULLER_DOWN_SIZE) true)
        ∧ (renderLines m c₁ c₂ (w - RULLER_LEFT_SIZE)
            (h - RULLER_UP_SIZE - RULLER_DOWN_SIZE) true).length = h - 1
        ∧ (renderLines m c₁ c₂ (w - RULLER_LEFT_SIZE)
            (h - RULLER_UP_SIZE - RULLER_DOWN_SIZE) true).headD []
            = rulerTopRow c₁ (w - RULLER_LEFT_SIZE)
        ∧ (rulerTopRow c₁ (w - RULLER_LEFT_SIZE)).length
            = RULLER_LEFT_SIZE + 2 * (w - RULLER_LEFT_SIZE)
        ∧ (∀ r ∈ (renderLines m c₁ c₂ (w - RULLER_LEFT_SIZE)
            (h - RULLER_UP_SIZE - RULLER_DOWN_SIZE) true).tail, r.length = w)) := by
  constructor
  · refine ⟨render_map_plain_eq m c₁ c₂ w h, ?_, ?_⟩
    · unfold renderLines
      rw [if_neg (by simp), List.nil_append, List.length_map, List.length_range]
    · intro r hr
      unfold renderLines at hr
      rw [if_neg (by simp), List.nil_append] at hr
      rcases List.mem_map.1 hr with ⟨yy, _, rfl⟩
      exact contentLine_length_plain m c₁ c₂ w yy
  · intro hw hh
    refine ⟨render_map_ruler_eq m c₁ c₂ w h hw hh, ?_, ?_,
      rulerTopRow_length c₁ (w - RULLER_LEFT_SIZE), ?_⟩
    · unfold renderLines
      rw [if_pos rfl]
      rw [List.length_append, List.length_map, List.length_range]
      unfold RULLER_UP_SIZE RULLER_DOWN_SIZE at *
      simp only [List.length_cons, List.length_nil]
      omega
    · unfold renderLines
      rw [if_pos rfl]
      rfl
    · intro r hr
      unfold renderLines at hr
      rw [if_pos rfl] at hr
      simp only [List.singleton_append, List.tail_cons] at hr
      rcases List.mem_map.1 hr with ⟨yy, _, rfl⟩
      rw [contentLine_length_ruler]
      unfold RULLER_LEFT_SIZE at hw ⊢
      omega

theorem render_rect_amended_witness :
    (RULLER_LEFT_SIZE ≤ 10 ∧ RULLER_UP_SIZE + RULLER_DOWN_SIZE ≤ 5) ∧
      (renderLines empty_map 0 0 (10 - RULLER_LEFT_SIZE)
        (5 - RULLER_UP_SIZE - RULLER_DOWN_SIZE) true).length = 5 - 1 :=
  ⟨⟨by decide, by decide⟩,
    ((render_rect_amended empty_map 0 0 10 5).2 (by decide) (by decide)).2.1⟩

/-- C3: the glyph placed at content offset `(cx, cy)` of the rendered
frame is the glyph of world cell `(cx + camera_x, cy + camera_y)`, and a
pointer event at the corresponding screen position — offset by the ruler
reservations exactly when the ruler is shown — maps back to that same
world coordinate. -/
theorem render_click_roundtrip (m : List (List F)) (c₁ c₂ cx cy w h : Nat) :
    (cx < w → cy < h →
      render_map m c₁ c₂ w h false = Option.some (renderLines m c₁ c₂ w h false)
      ∧ ((renderLines m c₁ c₂ w h false).getD cy []).getD cx ' '
          = contentChar m (cx + c₁) (cy + c₂)
      ∧ clickTarget cx cy c₁ c₂ false = Option.some (cx + c₁, cy + c₂))
    ∧ (RULLER_LEFT_SIZE ≤ w → RULLER_UP_SIZE + RULLER_DOWN_SIZE ≤ h →
       cx < w - RULLER_LEFT_SIZE → cy < h - RULLER_UP_SIZE - RULLER_DOWN_SIZE →
      render_map m c₁ c₂ w h true
        = Option.some (renderLines m c₁ c₂ (w - RULLER_LEFT_SIZE)
            (h - RULLER_UP_SIZE - RULLER_DOWN_SIZE) true)
      ∧ (((renderLines m c₁ c₂ (w - RULLER_LEFT_SIZE)
            (h - RULLER_UP_SIZE - RULLER_DOWN_SIZE) true).getD
              (RULLER_UP_SIZE + cy) []).getD (RULLER_LEFT_SIZE + cx) ' '
          = contentChar m (cx + c₁) (cy + c₂))
      ∧ clickTarget (RULLER_LEFT_SIZE + cx) (RULLER_UP_SIZE + cy) c₁ c₂ true
          = Option.some (cx + c₁, cy + c₂))
    ∧ (cx + c₁ < MAP_WIDTH → cy + c₂ < MAP_HEIGHT →
        contentChar m (cx + c₁) (cy + c₂)
          = get_char_for_value (mapGet m (cx + c₁) (cy + c₂))) := by
  refine ⟨?_, ?_, ?_⟩
  · intro hx hy
    refine ⟨render_map_plain_eq m c₁ c₂ w h, ?_, ?_⟩
    · rw [renderLines_getD_plain m c₁ c₂ w h cy hy,
        contentLine_getD_plain m c₁ c₂ w cy cx hx]
    · simp [clickTarget, calc_adj_mouse]
  · intro hw hh hx hy
    refine ⟨render_map_ruler_eq m c₁ c₂ w h hw hh, ?_, ?_⟩
    · rw [renderLines_getD_ruler m c₁ c₂ (w - RULLER_LEFT_SIZE)
          (h - RULLER_UP_SIZE - RULLER_DOWN_SIZE) cy hy,
        contentLine_getD_ruler m c₁ c₂ (w - RULLER_LEFT_SIZE) cy cx hx]
    · unfold clickTarget calc_adj_mouse
      rw [if_pos rfl]
      have e1 : ((RULLER_LEFT_SIZE + cx : Nat) : Int) - (RULLER_LEFT_SIZE : Int)
          = (cx : Int) := by push_cast; ring
      have e2 : ((RULLER_UP_SIZE + cy : Nat) : Int) - (RULLER_UP_SIZE : Int)
          = (cy : Int) := by push_cast; ring
      simp only [e1, e2]
      rw [if_pos ⟨Int.natCast_nonneg cx, Int.natCast_nonneg cy⟩]
      simp
  · intro h1 h2
    unfold contentChar
    rw [if_pos ⟨h2, h1⟩]

theorem render_click_roundtrip_witness :
    (RULLER_LEFT_SIZE ≤ 10 ∧ RULLER_UP_SIZE + RULLER_DOWN_SIZE ≤ 5
      ∧ 0 < 10 - RULLER_LEFT_SIZE ∧ 0 < 5 - RULLER_UP_SIZE - RULLER_DOWN_SIZE) ∧
      clickTarget (RULLER_LEFT_SIZE + 0) (RULLER_UP_SIZE + 0) 0 0 true
        = Option.some (0 + 0, 0 + 0) :=
  ⟨⟨by decide, by decide, by decide, by decide⟩,
    ((render_click_roundtrip empty_map 0 0 0 0 10 5).2.1
      (by decide) (by decide) (by decide) (by decide)).2.2⟩
